import Mathlib

/-!
Shallow embedding of `src/lib/grammers-client/src/client/dialogs.rs`
(the dialog iterator `DialogIter = IterBuffer<GetDialogs, Dialog>` and
`ClientHandle::delete_dialog`).

The transport is modelled explicitly: an iterator operation receives the
list of responses the transport will produce, consumes the head on each
`invoke`, and an empty list stands for a transport failure.  A Rust panic
is modelled as the error value `IterError.protocolViolation`.
-/

namespace Grammers

/-- Rust `as usize` applied to an `i32` value: two's-complement
reinterpretation into the 64-bit unsigned range. -/
def usize_of_i32 (c : Int) : Nat := (c % (2 ^ 64)).toNat

/-- Modelled from the spec: the `LastMessage` decoding union of a raw item,
`{Delivered{date, id}, Service{date, id}, Empty{id}}` (the generated
`tl::enums::Message` type is not part of the sources; only the fields the
offset deriver reads are modelled). -/
inductive TLMessage : Type
| message (date : Int) (id : Int)
| service (date : Int) (id : Int)
| empty (id : Int)
deriving DecidableEq, Repr

/-- The `tl::enums::InputPeer` variants matched by `delete_dialog` and stored
as `offset_peer`; field names follow the accesses in `dialogs.rs`
(`chat.chat_id`, `channel.channel_id`, `channel.access_hash`,
`channel.peer`, `channel.msg_id`). -/
inductive InputPeer : Type
| empty
| peerSelf
| user (user_id : Int) (access_hash : Int)
| userFromMessage (peer : InputPeer) (msg_id : Int) (user_id : Int)
| chat (chat_id : Int)
| channel (channel_id : Int) (access_hash : Int)
| channelFromMessage (peer : InputPeer) (msg_id : Int) (channel_id : Int)
deriving DecidableEq, Repr

/-- Modelled from the spec: an entry of the `users` side-collection (opaque
identity record keyed by id). -/
structure TLUser where
  id : Int
deriving DecidableEq, Repr

/-- Modelled from the spec: an entry of the `chats` side-collection (opaque
identity record keyed by id). -/
structure TLChat where
  id : Int
deriving DecidableEq, Repr

/-- Modelled from the spec: the Entity Side-Table, an opaque lookup built
from the two side-collections returned with a page (`crate::types::EntitySet`
is not part of the sources). -/
structure EntitySet where
  users : List TLUser
  chats : List TLChat
deriving DecidableEq, Repr

/-- `EntitySet::new(users, chats)`. -/
def EntitySet.new (users : List TLUser) (chats : List TLChat) : EntitySet :=
  ⟨users, chats⟩

/-- Modelled from the spec: a RawItem — a conversation summary carrying its
peer and an optional nested last message (the generated `tl::types::Dialog`
is not part of the sources; only what the iterator reads is modelled). -/
structure RawDialog where
  peer : InputPeer
  last_message : Option TLMessage
deriving DecidableEq, Repr

/-- Modelled from the spec: a DecodedItem — the raw item resolved against the
Entity Side-Table into a self-contained value (`crate::types::Dialog` is not
part of the sources). -/
structure Dialog where
  raw : RawDialog
  messages : List TLMessage
  entities : EntitySet
deriving DecidableEq, Repr

/-- `Dialog::new(dialog, &messages, &entities)`. -/
def Dialog.new (d : RawDialog) (messages : List TLMessage) (entities : EntitySet) :
    Dialog :=
  ⟨d, messages, entities⟩

/-- `dialog.last_message` as read by the offset-update step. -/
def Dialog.last_message (d : Dialog) : Option TLMessage := d.raw.last_message

/-- The `input_peer()` projection used as the next request's anchor. -/
def Dialog.input_peer (d : Dialog) : InputPeer := d.raw.peer

/-- The `tl::functions::messages::GetDialogs` request template
(the iterator's cursor state). -/
structure GetDialogs where
  exclude_pinned : Bool
  folder_id : Option Int
  offset_date : Int
  offset_id : Int
  offset_peer : InputPeer
  limit : Int
  hash : Int
deriving DecidableEq, Repr

/-- The `tl::enums::messages::Dialogs` response shapes: `Dialogs` (full),
`Slice` (with a declared `count : i32`) and `NotModified` (count only). -/
inductive DialogsResp : Type
| dialogs (ds : List RawDialog) (messages : List TLMessage)
    (users : List TLUser) (chats : List TLChat)
| slice (count : Int) (ds : List RawDialog) (messages : List TLMessage)
    (users : List TLUser) (chats : List TLChat)
| notModified (count : Int)
deriving DecidableEq, Repr

/-- Outcomes other than success: an opaque transport `InvocationError`, or the
protocol-contract violation with which `next` aborts (`panic` in the source)
when `Dialogs::NotModified` arrives even though `hash = 0`. -/
inductive IterError : Type
| invocation
| protocolViolation
deriving DecidableEq, Repr

/-- `MAX_LIMIT` from `dialogs.rs`. -/
def MAX_LIMIT : Nat := 100

/-- Modelled from the spec: the `IterBuffer` iterator state
(`crate::types::IterBuffer` is not part of the sources) — an overall item
quota `limit` with a count of already-yielded items `fetched`, the ordered
queue `buffer`, the memoized `total`, the terminal flag `last_chunk`, and the
cursor state `request`. -/
structure DialogIterState where
  limit : Nat
  fetched : Nat
  buffer : List Dialog
  total : Option Nat
  last_chunk : Bool
  request : GetDialogs
deriving DecidableEq, Repr

namespace DialogIter

/-- Modelled from the spec: `IterBuffer::from_request(client, limit, request)`
starts with an empty buffer, no memoized total and the terminal flag unset. -/
def from_request (limit : Nat) (request : GetDialogs) : DialogIterState :=
  { limit := limit, fetched := 0, buffer := [], total := none,
    last_chunk := false, request := request }

/-- `DialogIter::new(client)`: the default cursor state of `dialogs.rs`. -/
def new : DialogIterState :=
  from_request MAX_LIMIT
    { exclude_pinned := false, folder_id := none, offset_date := 0,
      offset_id := 0, offset_peer := .empty, limit := 0, hash := 0 }

end DialogIter

/-- Modelled from the spec: `determine_limit` computes
`fetch_limit = min(remaining_quota, MAX_PAGE_SIZE)`, where the remaining
quota is the overall item quota minus the items already yielded.  It does
not read the request's current `limit` field. -/
def DialogIterState.determine_limit (st : DialogIterState) (max : Nat) : Nat :=
  min (st.limit - st.fetched) max

/-- The request `next` actually transmits: the stored cursor state with
`limit` recomputed by `determine_limit(MAX_LIMIT)` (line 67 of
`dialogs.rs`). -/
def DialogIterState.sentRequest (st : DialogIterState) : GetDialogs :=
  { st.request with limit := (st.determine_limit MAX_LIMIT : Nat) }

/-- Modelled from the spec: `pop_item` pops the front of the queue (in
arrival order), counting the popped item against the quota. -/
def DialogIterState.pop_item (st : DialogIterState) :
    Option Dialog × DialogIterState :=
  match st.buffer with
  | [] => (none, st)
  | d :: rest => (some d, { st with buffer := rest, fetched := st.fetched + 1 })

/-- Modelled from the spec: `next_raw`, steps 1–2 of the `next()` algorithm —
pop the front if the buffer is non-empty; if the buffer is empty and the
iterator is terminal, return the empty sentinel; otherwise fall through to
the fetch (`none`). -/
def DialogIterState.next_raw (st : DialogIterState) :
    Option (Option Dialog × DialogIterState) :=
  match st.buffer with
  | d :: rest =>
    some (some d, { st with buffer := rest, fetched := st.fetched + 1 })
  | [] => if st.last_chunk then some (none, st) else none

/-- The offset deriver (lines 103–115 of `dialogs.rs`): `Message` and
`Service` update both `offset_date` and `offset_id`; `Empty` updates only
`offset_id`. -/
def applyOffset (m : TLMessage) (r : GetDialogs) : GetDialogs :=
  match m with
  | .message date id => { r with offset_date := date, offset_id := id }
  | .service date id => { r with offset_date := date, offset_id := id }
  | .empty id => { r with offset_id := id }

/-- The offset-update step (lines 93–118 of `dialogs.rs`): only when not
terminal and the buffer is non-empty, set `exclude_pinned`, derive
`offset_date`/`offset_id` from the first last-message found scanning the
buffer in reverse, and set `offset_peer` from `buffer[buffer.len() - 1]`
(an out-of-bounds access there would be a panic; the model leaves the field
unchanged in that branch so that its unreachability can be stated). -/
def updateOffsets (st : DialogIterState) : DialogIterState :=
  if !st.last_chunk && !st.buffer.isEmpty then
    let r1 := { st.request with exclude_pinned := true }
    let r2 :=
      match st.buffer.reverse.findSome? Dialog.last_message with
      | some m => applyOffset m r1
      | none => r1
    match st.buffer[st.buffer.length - 1]? with
    | some d => { st with request := { r2 with offset_peer := d.input_peer } }
    | none => { st with request := r2 }
  else st

/-- Decoding of one fetched chunk (lines 84–91): each raw dialog becomes
`Dialog::new(dialog, &messages, &entities)`, appended in order. -/
def decodeChunk (ds : List RawDialog) (messages : List TLMessage)
    (entities : EntitySet) : List Dialog :=
  ds.map fun d => Dialog.new d messages entities

/-- `DialogIter::next` (lines 60–121): drain or bail via `next_raw`; else
recompute the request limit, invoke the transport (consume the head
response), classify the chunk, refill the buffer, update offsets and pop. -/
def DialogIter.next (st : DialogIterState) (resps : List DialogsResp) :
    Except IterError (Option Dialog × DialogIterState × List DialogsResp) :=
  match st.next_raw with
  | some (r, st') => .ok (r, st', resps)
  | none =>
    let st := { st with request := st.sentRequest }
    match resps with
    | [] => .error .invocation
    | resp :: rest =>
      match resp with
      | .notModified _ => .error .protocolViolation
      | .dialogs ds messages users chats =>
        let st := { st with last_chunk := true, total := some ds.length }
        let st := { st with
          buffer := st.buffer ++ decodeChunk ds messages (EntitySet.new users chats) }
        let st := updateOffsets st
        let p := st.pop_item
        .ok (p.1, p.2, rest)
      | .slice count ds messages users chats =>
        let st := { st with
          last_chunk := decide (ds.length < usize_of_i32 st.request.limit),
          total := some (usize_of_i32 count) }
        let st := { st with
          buffer := st.buffer ++ decodeChunk ds messages (EntitySet.new users chats) }
        let st := updateOffsets st
        let p := st.pop_item
        .ok (p.1, p.2, rest)

/-- `DialogIter::total` (lines 39–54): return the memoized value if present;
else force `limit = 1`, invoke once, and read a count out of any of the three
response shapes — including `NotModified`, whose declared count is returned
as a success. -/
def DialogIter.total (st : DialogIterState) (resps : List DialogsResp) :
    Except IterError (Nat × DialogIterState × List DialogsResp) :=
  match st.total with
  | some t => .ok (t, st, resps)
  | none =>
    let st := { st with request := { st.request with limit := 1 } }
    match resps with
    | [] => .error .invocation
    | resp :: rest =>
      let t :=
        match resp with
        | .dialogs ds _ _ _ => ds.length
        | .slice count _ _ _ _ => usize_of_i32 count
        | .notModified count => usize_of_i32 count
      .ok (t, { st with total := some t }, rest)

/-- Decoded items contributed by one response shape: the chunk's raw dialogs
decoded against its own side-tables (`NotModified` carries no items). -/
def decodeResp : DialogsResp → List Dialog
  | .dialogs ds messages users chats =>
    decodeChunk ds messages (EntitySet.new users chats)
  | .slice _ ds messages users chats =>
    decodeChunk ds messages (EntitySet.new users chats)
  | .notModified _ => []

/-- Drives `next()` repeatedly (at most `n` calls) until it returns the empty
sentinel, collecting the yielded items in order.  `none` means the fuel ran
out before exhaustion; `some` reports the completed drive's outcome. -/
def runIter : Nat → DialogIterState → List DialogsResp →
    Option (Except IterError (List Dialog × DialogIterState × List DialogsResp))
  | 0, _, _ => none
  | n + 1, st, resps =>
    match DialogIter.next st resps with
    | .error e => some (.error e)
    | .ok (none, st', resps') => some (.ok ([], st', resps'))
    | .ok (some d, st', resps') =>
      match runIter n st' resps' with
      | none => none
      | some (.error e) => some (.error e)
      | some (.ok (l, st'', resps'')) => some (.ok (d :: l, st'', resps''))

/-- `tl::enums::InputUser`, as used by `delete_dialog` (only `UserSelf`). -/
inductive InputUser : Type
| userSelf
deriving DecidableEq, Repr

/-- `tl::enums::InputChannel`: built either from `tl::types::InputChannel`
(`channel_id`, `access_hash`) or from `tl::types::InputChannelFromMessage`
(`peer`, `msg_id`, `channel_id`), as in the two `.into()` sites of
`delete_dialog`. -/
inductive InputChannel : Type
| channel (channel_id : Int) (access_hash : Int)
| fromMessage (peer : InputPeer) (msg_id : Int) (channel_id : Int)
deriving DecidableEq, Repr

/-- The remote calls `delete_dialog` can issue:
`messages::DeleteHistory`, `messages::DeleteChatUser`,
`channels::LeaveChannel`. -/
inductive RpcCall : Type
| deleteHistory (just_clear : Bool) (revoke : Bool) (peer : InputPeer) (max_id : Int)
| deleteChatUser (chat_id : Int) (user_id : InputUser)
| leaveChannel (channel : InputChannel)
deriving DecidableEq, Repr

/-- `ClientHandle::delete_dialog` (lines 138–188): dispatch on the peer kind.
`invoke` is the transport (any payload type `α`); the second component
records the calls actually issued, in order.  Every invoking branch maps the
payload away with `.map(drop)`. -/
def delete_dialog {α : Type} (invoke : RpcCall → Except IterError α)
    (chat : InputPeer) : Except IterError Unit × List RpcCall :=
  match chat with
  | .empty => (.ok (), [])
  | .peerSelf =>
    let c := RpcCall.deleteHistory false false chat 0
    ((invoke c).map fun _ => (), [c])
  | .user _ _ =>
    let c := RpcCall.deleteHistory false false chat 0
    ((invoke c).map fun _ => (), [c])
  | .userFromMessage _ _ _ =>
    let c := RpcCall.deleteHistory false false chat 0
    ((invoke c).map fun _ => (), [c])
  | .chat chat_id =>
    let c := RpcCall.deleteChatUser chat_id .userSelf
    ((invoke c).map fun _ => (), [c])
  | .channel channel_id access_hash =>
    let c := RpcCall.leaveChannel (.channel channel_id access_hash)
    ((invoke c).map fun _ => (), [c])
  | .channelFromMessage peer msg_id channel_id =>
    let c := RpcCall.leaveChannel (.fromMessage peer msg_id channel_id)
    ((invoke c).map fun _ => (), [c])

/-! ## Helper lemmas -/

theorem usize_of_i32_ofNat (n : Nat) (h : n < 2 ^ 64) :
    usize_of_i32 (n : Int) = n := by
  unfold usize_of_i32
  rw [Int.emod_eq_of_lt (by positivity) (by exact_mod_cast h)]
  simp

theorem updateOffsets_shape (st : DialogIterState) :
    updateOffsets st = { st with request := (updateOffsets st).request } := by
  unfold updateOffsets
  split
  · split <;> split <;> rfl
  · rfl

theorem updateOffsets_buffer (st : DialogIterState) :
    (updateOffsets st).buffer = st.buffer := by
  rw [updateOffsets_shape st]

theorem updateOffsets_last_chunk (st : DialogIterState) :
    (updateOffsets st).last_chunk = st.last_chunk := by
  rw [updateOffsets_shape st]

theorem updateOffsets_total (st : DialogIterState) :
    (updateOffsets st).total = st.total := by
  rw [updateOffsets_shape st]

theorem updateOffsets_neg (st : DialogIterState)
    (h : st.last_chunk = true ∨ st.buffer = []) : updateOffsets st = st := by
  unfold updateOffsets
  rw [if_neg]
  rcases h with h | h <;> simp [h]

theorem buffer_last_some (st : DialogIterState) (hb : st.buffer ≠ []) :
    ∃ d, st.buffer[st.buffer.length - 1]? = some d := by
  have hlen : st.buffer.length - 1 < st.buffer.length :=
    Nat.sub_lt (List.length_pos.mpr hb) one_pos
  exact ⟨st.buffer[st.buffer.length - 1], List.getElem?_eq_getElem hlen⟩

theorem updateOffsets_pos (st : DialogIterState) (hl : st.last_chunk = false)
    (hb : st.buffer ≠ []) (d : Dialog)
    (hd : st.buffer[st.buffer.length - 1]? = some d) :
    updateOffsets st =
      { st with request :=
        { (match st.buffer.reverse.findSome? Dialog.last_message with
           | some m => applyOffset m { st.request with exclude_pinned := true }
           | none => { st.request with exclude_pinned := true }) with
          offset_peer := d.input_peer } } := by
  have hbe : st.buffer.isEmpty = false := by
    cases h : st.buffer
    · exact absurd h hb
    · rfl
  unfold updateOffsets
  rw [if_pos (by simp [hl, hbe]), hd]

theorem pop_item_keeps (st : DialogIterState) :
    st.pop_item.2.last_chunk = st.last_chunk ∧
    st.pop_item.2.total = st.total ∧
    st.pop_item.2.request = st.request := by
  unfold DialogIterState.pop_item
  cases st.buffer <;> exact ⟨rfl, rfl, rfl⟩

theorem pop_item_cons (st : DialogIterState) (d : Dialog) (t : List Dialog)
    (h : st.buffer = d :: t) :
    st.pop_item =
      (some d, { st with buffer := t, fetched := st.fetched + 1 }) := by
  unfold DialogIterState.pop_item
  rw [h]

theorem pop_item_nil (st : DialogIterState) (h : st.buffer = []) :
    st.pop_item = (none, st) := by
  unfold DialogIterState.pop_item
  rw [h]

theorem next_pop (st : DialogIterState) (d : Dialog) (t : List Dialog)
    (resps : List DialogsResp) (hB : st.buffer = d :: t) :
    DialogIter.next st resps =
      .ok (some d, { st with buffer := t, fetched := st.fetched + 1 }, resps) := by
  simp [DialogIter.next, DialogIterState.next_raw, hB]

theorem next_terminal (st : DialogIterState) (resps : List DialogsResp)
    (hb : st.buffer = []) (hl : st.last_chunk = true) :
    DialogIter.next st resps = .ok (none, st, resps) := by
  simp [DialogIter.next, DialogIterState.next_raw, hb, hl]

theorem next_no_resps (st : DialogIterState) (hb : st.buffer = [])
    (hl : st.last_chunk = false) :
    DialogIter.next st [] = .error .invocation := by
  simp [DialogIter.next, DialogIterState.next_raw, hb, hl]

theorem next_notmodified (st : DialogIterState) (count : Int)
    (rest : List DialogsResp) (hb : st.buffer = [])
    (hl : st.last_chunk = false) :
    DialogIter.next st (.notModified count :: rest) =
      .error .protocolViolation := by
  simp [DialogIter.next, DialogIterState.next_raw, hb, hl]

theorem next_fetch_dialogs (st : DialogIterState) (hb : st.buffer = [])
    (hl : st.last_chunk = false) (ds : List RawDialog)
    (messages : List TLMessage) (users : List TLUser) (chats : List TLChat)
    (rest : List DialogsResp) :
    DialogIter.next st (.dialogs ds messages users chats :: rest) =
      .ok ((updateOffsets
              { st with request := st.sentRequest,
                        last_chunk := true, total := some ds.length,
                        buffer := decodeChunk ds messages (EntitySet.new users chats) }).pop_item.1,
           (updateOffsets
              { st with request := st.sentRequest,
                        last_chunk := true, total := some ds.length,
                        buffer := decodeChunk ds messages (EntitySet.new users chats) }).pop_item.2,
           rest) := by
  simp [DialogIter.next, DialogIterState.next_raw, hb, hl]

theorem next_fetch_slice (st : DialogIterState) (hb : st.buffer = [])
    (hl : st.last_chunk = false) (count : Int) (ds : List RawDialog)
    (messages : List TLMessage) (users : List TLUser) (chats : List TLChat)
    (rest : List DialogsResp) :
    DialogIter.next st (.slice count ds messages users chats :: rest) =
      .ok ((updateOffsets
              { st with request := st.sentRequest,
                        last_chunk := decide (ds.length < usize_of_i32 st.sentRequest.limit),
                        total := some (usize_of_i32 count),
                        buffer := decodeChunk ds messages (EntitySet.new users chats) }).pop_item.1,
           (updateOffsets
              { st with request := st.sentRequest,
                        last_chunk := decide (ds.length < usize_of_i32 st.sentRequest.limit),
                        total := some (usize_of_i32 count),
                        buffer := decodeChunk ds messages (EntitySet.new users chats) }).pop_item.2,
           rest) := by
  simp [DialogIter.next, DialogIterState.next_raw, hb, hl]

theorem sentRequest_limit (st : DialogIterState) :
    usize_of_i32 st.sentRequest.limit = st.determine_limit MAX_LIMIT := by
  have hle : st.determine_limit MAX_LIMIT ≤ 100 := min_le_right _ _
  exact usize_of_i32_ofNat _ (lt_of_le_of_lt hle (by norm_num))

/-- The count `total` reads out of each response shape. -/
def totalOf : DialogsResp → Nat
  | .dialogs ds _ _ _ => ds.length
  | .slice count _ _ _ _ => usize_of_i32 count
  | .notModified count => usize_of_i32 count

theorem total_fetch (st : DialogIterState) (hT : st.total = none)
    (resp : DialogsResp) (rest : List DialogsResp) :
    DialogIter.total st (resp :: rest) =
      .ok (totalOf resp,
           { st with
               request := { st.request with limit := 1 },
               total := some (totalOf resp) },
           rest) := by
  cases resp <;> simp [DialogIter.total, hT, totalOf]

/-! ## Concrete example values -/

/-- A raw dialog over a basic group, whose last message is a delivered
message with `date = 100`, `id = 3`. -/
def exRawDialog : RawDialog := ⟨.chat 1, some (.message 100 3)⟩

/-- Its decoded form with empty side-tables. -/
def exDialogDecoded : Dialog := Dialog.new exRawDialog [] (EntitySet.new [] [])

/-- A `Slice` response of one item with declared count `10`. -/
def exSliceResp : DialogsResp := .slice 10 [exRawDialog] [] [] []

/-- A fresh iterator whose `total` is already memoized as `5`. -/
def exStateTotal5 : DialogIterState := { DialogIter.new with total := some 5 }

/-- The state after one fetching `next()` against `exSliceResp`. -/
def exStateAfterNext : DialogIterState :=
  match DialogIter.next exStateTotal5 [exSliceResp] with
  | .ok (_, st, _) => st
  | _ => exStateTotal5

/-- A fresh iterator holding one buffered item. -/
def exStateBuf : DialogIterState :=
  { DialogIter.new with buffer := [exDialogDecoded] }

/-! ## Claims -/

/-- C4: the offset deriver updates both `offset_date` and `offset_id` for the
`Message` (Delivered) and `Service` variants, but only `offset_id` for
`Empty`, leaving the stored `offset_date` unchanged; in particular
`Empty{id=7}` over a prior `offset_date = 500` yields
`offset_id = 7, offset_date = 500`. -/
theorem offset_deriver_asymmetry (r : GetDialogs) :
    (∀ date id, applyOffset (.message date id) r =
      { r with offset_date := date, offset_id := id }) ∧
    (∀ date id, applyOffset (.service date id) r =
      { r with offset_date := date, offset_id := id }) ∧
    (∀ id, applyOffset (.empty id) r = { r with offset_id := id }) ∧
    (applyOffset (.empty 7) { r with offset_date := 500 }).offset_id = 7 ∧
    (applyOffset (.empty 7) { r with offset_date := 500 }).offset_date = 500 :=
  ⟨fun _ _ => rfl, fun _ _ => rfl, fun _ => rfl, rfl, rfl⟩

/-- C5: `delete_dialog` on `Empty` succeeds without issuing any call; on
`PeerSelf`, `User` and `UserFromMessage` it issues exactly one
`DeleteHistory` with `just_clear = false`, `revoke = false`, `max_id = 0`
against that peer; on `Chat` exactly one `DeleteChatUser` scoped to that
chat's id; on `Channel{id = 9, access_hash = 42}` exactly one `LeaveChannel`
carrying `channel_id = 9` and `access_hash = 42`; and every branch's result
is the transport outcome with its payload discarded. -/
theorem delete_dispatcher_mapping {α : Type}
    (invoke : RpcCall → Except IterError α) :
    delete_dialog invoke .empty = (.ok (), []) ∧
    (delete_dialog invoke .peerSelf =
      ((invoke (.deleteHistory false false .peerSelf 0)).map fun _ => (),
       [.deleteHistory false false .peerSelf 0])) ∧
    (∀ uid ah, delete_dialog invoke (.user uid ah) =
      ((invoke (.deleteHistory false false (.user uid ah) 0)).map fun _ => (),
       [.deleteHistory false false (.user uid ah) 0])) ∧
    (∀ p mid uid, delete_dialog invoke (.userFromMessage p mid uid) =
      ((invoke (.deleteHistory false false (.userFromMessage p mid uid) 0)).map fun _ => (),
       [.deleteHistory false false (.userFromMessage p mid uid) 0])) ∧
    (∀ cid, delete_dialog invoke (.chat cid) =
      ((invoke (.deleteChatUser cid .userSelf)).map fun _ => (),
       [.deleteChatUser cid .userSelf])) ∧
    (delete_dialog invoke (.channel 9 42) =
      ((invoke (.leaveChannel (.channel 9 42))).map fun _ => (),
       [.leaveChannel (.channel 9 42)])) ∧
    (∀ chat, (delete_dialog invoke chat).1 =
      match (delete_dialog invoke chat).2 with
      | [] => .ok ()
      | c :: _ => (invoke c).map fun _ => ()) := by
  refine ⟨rfl, rfl, fun _ _ => rfl, fun _ _ _ => rfl, fun _ => rfl, rfl,
    fun chat => ?_⟩
  cases chat <;> rfl

/-- C7: the cursor is advanced exactly when the iterator is not terminal and
the buffer is non-empty; then `exclude_pinned` becomes `true`,
`offset_peer` is taken from the last buffered item's `input_peer()`, and
`offset_date`/`offset_id` are derived (with the Empty-variant asymmetry)
from the first last-message found scanning the buffer in reverse, staying
unchanged when no buffered item carries one; when terminal or empty, the
state is entirely unmodified. -/
theorem cursor_advance_step (st : DialogIterState) :
    (st.last_chunk = false → st.buffer ≠ [] →
      (updateOffsets st).request.exclude_pinned = true ∧
      (∀ d, st.buffer[st.buffer.length - 1]? = some d →
        (updateOffsets st).request.offset_peer = d.input_peer) ∧
      (∀ m, st.buffer.reverse.findSome? Dialog.last_message = some m →
        (updateOffsets st).request.offset_date =
          (applyOffset m st.request).offset_date ∧
        (updateOffsets st).request.offset_id =
          (applyOffset m st.request).offset_id) ∧
      (st.buffer.reverse.findSome? Dialog.last_message = none →
        (updateOffsets st).request.offset_date = st.request.offset_date ∧
        (updateOffsets st).request.offset_id = st.request.offset_id)) ∧
    (st.last_chunk = true ∨ st.buffer = [] → updateOffsets st = st) := by
  constructor
  · intro hl hb
    obtain ⟨d0, hd0⟩ := buffer_last_some st hb
    rw [updateOffsets_pos st hl hb d0 hd0]
    refine ⟨?_, ?_, ?_, ?_⟩
    · cases hf : st.buffer.reverse.findSome? Dialog.last_message
      · simp
      · rename_i m
        cases m <;> simp [applyOffset]
    · intro d hd
      rw [hd0] at hd
      cases hd
      rfl
    · intro m hm
      rw [hm]
      cases m <;> simp [applyOffset]
    · intro hm
      rw [hm]
      simp
  · exact updateOffsets_neg st

/-- C10: under the guard that the iterator is not terminal and the buffer is
non-empty, the direct index `buffer[buffer.len() - 1]` used to read the new
`offset_peer` is in bounds (the access yields `some`), and `updateOffsets`
indeed reads `offset_peer` from that element — the out-of-bounds branch is
unreachable there. -/
theorem buffer_last_index_in_bounds (st : DialogIterState)
    (hl : st.last_chunk = false) (hb : st.buffer ≠ []) :
    ∃ d, st.buffer[st.buffer.length - 1]? = some d ∧
      (updateOffsets st).request.offset_peer = d.input_peer := by
  obtain ⟨d, hd⟩ := buffer_last_some st hb
  refine ⟨d, hd, ?_⟩
  rw [updateOffsets_pos st hl hb d hd]

/-- C10 witness: the bound holds on a concrete one-element buffer. -/
theorem buffer_last_index_in_bounds_witness :
    ∃ d, exStateBuf.buffer[exStateBuf.buffer.length - 1]? = some d ∧
      (updateOffsets exStateBuf).request.offset_peer = d.input_peer :=
  buffer_last_index_in_bounds exStateBuf rfl (by decide)

/-- C6: once the terminal flag is set, every `next()` leaves it set and
consumes no transport response; with the buffer already drained, `next()`
returns the empty sentinel and leaves the state untouched; and `total()`
never changes the flag. -/
theorem terminal_absorbing (st : DialogIterState) (resps : List DialogsResp)
    (h : st.last_chunk = true) :
    (∃ r st', DialogIter.next st resps = .ok (r, st', resps) ∧
      st'.last_chunk = true) ∧
    (st.buffer = [] → DialogIter.next st resps = .ok (none, st, resps)) ∧
    (∀ t st' resps', DialogIter.total st resps = .ok (t, st', resps') →
      st'.last_chunk = true) := by
  refine ⟨?_, fun hb => next_terminal st resps hb h, ?_⟩
  · cases hB : st.buffer with
    | nil => exact ⟨none, st, next_terminal st resps hB h, h⟩
    | cons d t => exact ⟨some d, _, next_pop st d t resps hB, h⟩
  · intro t st' resps' ht
    unfold DialogIter.total at ht
    cases hT : st.total with
    | some v =>
      simp only [hT, Except.ok.injEq, Prod.mk.injEq] at ht
      rw [← ht.2.1]
      exact h
    | none =>
      simp only [hT] at ht
      cases resps with
      | nil => simp at ht
      | cons resp rest =>
        simp only [Except.ok.injEq, Prod.mk.injEq] at ht
        rw [← ht.2.1]
        exact h

/-- C6 witness: a concrete terminal iterator with a drained buffer. -/
theorem terminal_absorbing_witness :
    DialogIter.next { DialogIter.new with last_chunk := true } [] =
      .ok (none, { DialogIter.new with last_chunk := true }, []) :=
  (terminal_absorbing { DialogIter.new with last_chunk := true } [] rfl).2.1 rfl

/-- C3: on a fetch, a `Dialogs` (full) response makes the iterator terminal
and sets `total` to the number of returned items; a `Slice` response makes
it terminal exactly when the number of returned items is strictly below the
fetch limit set on the request, and sets `total` to the declared count. -/
theorem chunk_classification (st : DialogIterState) (ds : List RawDialog)
    (messages : List TLMessage) (users : List TLUser) (chats : List TLChat)
    (count : Int) (rest : List DialogsResp)
    (hb : st.buffer = []) (hl : st.last_chunk = false) :
    (∃ r st', DialogIter.next st (.dialogs ds messages users chats :: rest) =
      .ok (r, st', rest) ∧ st'.last_chunk = true ∧
      st'.total = some ds.length) ∧
    (∃ r st', DialogIter.next st (.slice count ds messages users chats :: rest) =
      .ok (r, st', rest) ∧
      (st'.last_chunk = true ↔ ds.length < st.determine_limit MAX_LIMIT) ∧
      st'.total = some (usize_of_i32 count)) := by
  constructor
  · refine ⟨_, _, next_fetch_dialogs st hb hl ds messages users chats rest,
      ?_, ?_⟩
    · rw [(pop_item_keeps _).1, updateOffsets_last_chunk]
    · rw [(pop_item_keeps _).2.1, updateOffsets_total]
  · refine ⟨_, _, next_fetch_slice st hb hl count ds messages users chats rest,
      ?_, ?_⟩
    · rw [(pop_item_keeps _).1, updateOffsets_last_chunk]
      simp [sentRequest_limit]
    · rw [(pop_item_keeps _).2.1, updateOffsets_total]

/-- C3 witness: a concrete full response of one item. -/
theorem chunk_classification_witness :
    ∃ r st', DialogIter.next DialogIter.new
        [.dialogs [exRawDialog] [] [] []] = .ok (r, st', []) ∧
      st'.last_chunk = true ∧ st'.total = some 1 :=
  (chunk_classification DialogIter.new [exRawDialog] [] [] [] 0 [] rfl rfl).1

/-- C1 counterexample: with the fresh iterator (whose request has
`hash = 0`) and `total` not yet memoized, a `NotModified` response makes
`total()` succeed with the declared count — it does not fail with the
protocol-contract violation the claim requires of every operation. -/
theorem total_succeeds_on_notmodified :
    DialogIter.new.request.hash = 0 ∧
    (DialogIter.total DialogIter.new [.notModified 5]).toOption.map
      (fun p => p.1) = some 5 := by
  constructor
  · rfl
  · decide

/-- C1 (amended): a `NotModified` response while `hash = 0` makes `next()`
abort with the protocol-contract violation; `total()`, by contrast, treats
it as a successful response and returns its declared count. -/
theorem notmodified_abort (st : DialogIterState) (count : Int)
    (rest : List DialogsResp) (hb : st.buffer = [])
    (hl : st.last_chunk = false) :
    DialogIter.next st (.notModified count :: rest) =
      .error .protocolViolation ∧
    (st.total = none →
      DialogIter.total st (.notModified count :: rest) =
        .ok (usize_of_i32 count,
             { st with
                 request := { st.request with limit := 1 },
                 total := some (usize_of_i32 count) },
             rest)) := by
  refine ⟨next_notmodified st count rest hb hl, fun hT => ?_⟩
  simp [DialogIter.total, hT]

/-- C1 witness: the fresh iterator aborts `next()` on `NotModified`. -/
theorem notmodified_abort_witness :
    DialogIter.next DialogIter.new [.notModified 3] =
      .error .protocolViolation :=
  (notmodified_abort DialogIter.new 3 [] rfl rfl).1

/-- C2 counterexample: with `total` memoized as `5`, `total()` reports `5`;
one `next()` call fetching a `Slice` with declared count `10` succeeds, and
the later `total()` reports `10 ≠ 5` — the memoized total was overwritten
by `next()`. -/
theorem total_overwritten_by_next :
    (DialogIter.total exStateTotal5 []).toOption.map (fun p => p.1) =
      some 5 ∧
    (DialogIter.next exStateTotal5 [exSliceResp]).toOption.isSome = true ∧
    (DialogIter.total exStateAfterNext []).toOption.map (fun p => p.1) =
      some 10 ∧
    (5 : Nat) ≠ 10 := by
  refine ⟨by decide, by decide, by decide, by decide⟩

/-- C2 (amended): a memoized `total` is returned unchanged by `total()`
itself (with no transport call), and is preserved by every `next()` call
that does not fetch (buffer non-empty or iterator terminal); only a
fetching `next()` overwrites it with the new chunk's count. -/
theorem total_memoized_until_fetch (st : DialogIterState)
    (resps : List DialogsResp) (v : Nat) (h : st.total = some v) :
    DialogIter.total st resps = .ok (v, st, resps) ∧
    (∀ r st' resps', st.buffer ≠ [] ∨ st.last_chunk = true →
      DialogIter.next st resps = .ok (r, st', resps') →
      st'.total = some v) := by
  constructor
  · simp [DialogIter.total, h]
  · rintro r st' resps' (hb | hl) hn
    · obtain ⟨d, t, hB⟩ : ∃ d t, st.buffer = d :: t := by
        cases hB : st.buffer
        · exact absurd hB hb
        · exact ⟨_, _, rfl⟩
      rw [next_pop st d t resps hB] at hn
      simp only [Except.ok.injEq, Prod.mk.injEq] at hn
      rw [← hn.2.1]
      exact h
    · cases hB : st.buffer with
      | nil =>
        rw [next_terminal st resps hB hl] at hn
        simp only [Except.ok.injEq, Prod.mk.injEq] at hn
        rw [← hn.2.1]
        exact h
      | cons d t =>
        rw [next_pop st d t resps hB] at hn
        simp only [Except.ok.injEq, Prod.mk.injEq] at hn
        rw [← hn.2.1]
        exact h

/-- C2 witness: the memoized value `5` is returned as-is by `total()`. -/
theorem total_memoized_until_fetch_witness :
    DialogIter.total exStateTotal5 [] = .ok (5, exStateTotal5, []) :=
  (total_memoized_until_fetch exStateTotal5 [] 5 rfl).1

/-- C9: `total()`'s probe leaves `limit = 1` on the request without
restoring it; yet the request `next()` transmits recomputes `limit` as
`min(remaining_quota, 100)` without reading the stored `limit` field, so a
fetching `next()` behaves identically whatever value the `limit` field was
left holding. -/
theorem limit_probe_independence (st : DialogIterState)
    (resps : List DialogsResp) (hb : st.buffer = [])
    (hl : st.last_chunk = false) :
    (st.total = none → ∀ resp rest, ∃ t st',
      DialogIter.total st (resp :: rest) = .ok (t, st', rest) ∧
      st'.request.limit = 1) ∧
    (∀ L, ({ st with request := { st.request with limit := L } }
        : DialogIterState).sentRequest = st.sentRequest) ∧
    (∀ T, ({ st with total := T } : DialogIterState).sentRequest =
      st.sentRequest) ∧
    st.sentRequest.limit = ((min (st.limit - st.fetched) 100 : Nat) : Int) ∧
    st.determine_limit MAX_LIMIT ≤ 100 ∧
    (∀ L, DialogIter.next
        { st with request := { st.request with limit := L } } resps =
      DialogIter.next st resps) := by
  refine ⟨fun hT resp rest => ?_, fun L => rfl, fun T => rfl, rfl,
    min_le_right _ _, fun L => ?_⟩
  · exact ⟨totalOf resp, _, total_fetch st hT resp rest, rfl⟩
  · cases resps with
    | nil =>
      exact (next_no_resps
        { st with request := { st.request with limit := L } } hb hl).trans
        (next_no_resps st hb hl).symm
    | cons resp rest =>
      cases resp with
      | notModified c =>
        exact (next_notmodified
          { st with request := { st.request with limit := L } } c rest hb
          hl).trans (next_notmodified st c rest hb hl).symm
      | dialogs ds ms us cs =>
        exact (next_fetch_dialogs
          { st with request := { st.request with limit := L } } hb hl ds ms
          us cs rest).trans
          (next_fetch_dialogs st hb hl ds ms us cs rest).symm
      | slice c ds ms us cs =>
        exact (next_fetch_slice
          { st with request := { st.request with limit := L } } hb hl c ds
          ms us cs rest).trans
          (next_fetch_slice st hb hl c ds ms us cs rest).symm

/-- C9 witness: on the fresh iterator the transmitted limit is
`min(100 - 0, 100)`. -/
theorem limit_probe_independence_witness :
    DialogIter.new.sentRequest.limit =
      ((min (DialogIter.new.limit - DialogIter.new.fetched) 100 : Nat)
        : Int) :=
  (limit_probe_independence DialogIter.new [] rfl rfl).2.2.2.1

theorem fetch_result_trace (stN : DialogIterState) :
    stN.buffer =
      (updateOffsets stN).pop_item.1.toList ++
        (updateOffsets stN).pop_item.2.buffer ∧
    ((updateOffsets stN).pop_item.1 = none →
      (updateOffsets stN).pop_item.2.buffer = []) := by
  have hbuf := updateOffsets_buffer stN
  cases hDC : (updateOffsets stN).buffer with
  | nil =>
    rw [pop_item_nil _ hDC]
    exact ⟨by rw [← hbuf, hDC]; rfl, fun _ => hDC⟩
  | cons d t =>
    rw [pop_item_cons _ d t hDC]
    exact ⟨by rw [← hbuf, hDC]; rfl, fun hr => absurd hr (by simp)⟩

theorem next_trace (st : DialogIterState) (resps : List DialogsResp)
    (r : Option Dialog) (st' : DialogIterState) (resps' : List DialogsResp)
    (h : DialogIter.next st resps = .ok (r, st', resps')) :
    ∃ pre, resps = pre ++ resps' ∧
      st.buffer ++ (pre.map decodeResp).flatten = r.toList ++ st'.buffer ∧
      (r = none → st'.buffer = []) := by
  cases hB : st.buffer with
  | cons d t =>
    rw [next_pop st d t resps hB] at h
    simp only [Except.ok.injEq, Prod.mk.injEq] at h
    obtain ⟨h1, h2, h3⟩ := h
    subst h1
    subst h2
    subst h3
    exact ⟨[], by simp, by simp [hB], by simp⟩
  | nil =>
    cases hL : st.last_chunk with
    | true =>
      rw [next_terminal st resps hB hL] at h
      simp only [Except.ok.injEq, Prod.mk.injEq] at h
      obtain ⟨h1, h2, h3⟩ := h
      subst h1
      subst h2
      subst h3
      exact ⟨[], by simp, by simp [hB], fun _ => hB⟩
    | false =>
      cases resps with
      | nil =>
        rw [next_no_resps st hB hL] at h
        exact absurd h (by simp)
      | cons resp rest =>
        cases resp with
        | notModified c =>
          rw [next_notmodified st c rest hB hL] at h
          exact absurd h (by simp)
        | dialogs ds ms us cs =>
          rw [next_fetch_dialogs st hB hL ds ms us cs rest] at h
          simp only [Except.ok.injEq, Prod.mk.injEq] at h
          obtain ⟨h1, h2, h3⟩ := h
          subst h1
          subst h2
          subst h3
          refine ⟨[.dialogs ds ms us cs], rfl, ?_, (fetch_result_trace _).2⟩
          rw [← (fetch_result_trace _).1]
          simp [hB, decodeResp]
        | slice c ds ms us cs =>
          rw [next_fetch_slice st hB hL c ds ms us cs rest] at h
          simp only [Except.ok.injEq, Prod.mk.injEq] at h
          obtain ⟨h1, h2, h3⟩ := h
          subst h1
          subst h2
          subst h3
          refine ⟨[.slice c ds ms us cs], rfl, ?_, (fetch_result_trace _).2⟩
          rw [← (fetch_result_trace _).1]
          simp [hB, decodeResp]

theorem runIter_trace (n : Nat) :
    ∀ st resps l st' resps',
      runIter n st resps = some (.ok (l, st', resps')) →
      ∃ pre, resps = pre ++ resps' ∧
        st.buffer ++ (pre.map decodeResp).flatten = l ++ st'.buffer ∧
        st'.buffer = [] := by
  induction n with
  | zero =>
    intro st resps l st' resps' h
    exact absurd h (by simp [runIter])
  | succ n ih =>
    intro st resps l st' resps' h
    simp only [runIter] at h
    cases hN : DialogIter.next st resps with
    | error e =>
      rw [hN] at h
      exact absurd h (by simp)
    | ok p =>
      obtain ⟨r, st1, resps1⟩ := p
      rw [hN] at h
      cases r with
      | none =>
        simp only [Option.some.injEq, Except.ok.injEq, Prod.mk.injEq] at h
        obtain ⟨h1, h2, h3⟩ := h
        subst h1
        subst h2
        subst h3
        obtain ⟨pre, hpre, htr, hemp⟩ := next_trace st resps none st1 resps1 hN
        exact ⟨pre, hpre, by simpa using htr, hemp rfl⟩
      | some d =>
        dsimp only at h
        cases hR : runIter n st1 resps1 with
        | none =>
          rw [hR] at h
          exact absurd h (by simp)
        | some res =>
          cases res with
          | error e =>
            rw [hR] at h
            exact absurd h (by simp)
          | ok q =>
            obtain ⟨l0, st2, resps2⟩ := q
            rw [hR] at h
            simp only [Option.some.injEq, Except.ok.injEq, Prod.mk.injEq] at h
            obtain ⟨h1, h2, h3⟩ := h
            subst h1
            subst h2
            subst h3
            obtain ⟨pre1, hpre1, htr1, -⟩ :=
              next_trace st resps (some d) st1 resps1 hN
            obtain ⟨pre2, hpre2, htr2, hemp⟩ :=
              ih st1 resps1 l0 st2 resps2 hR
            refine ⟨pre1 ++ pre2, ?_, ?_, hemp⟩
            · rw [hpre1, hpre2, List.append_assoc]
            · rw [List.map_append, List.flatten_append, ← List.append_assoc,
                htr1]
              simp only [Option.toList_some, List.cons_append,
                List.nil_append, List.append_assoc]
              rw [htr2]

/-- C8: driving `next()` to exhaustion (the drive completing successfully
within any fuel) yields exactly the concatenation, in arrival order, of the
decoded items of the chunks actually fetched — nothing dropped, duplicated
or reordered by the buffering. -/
theorem order_preservation (n : Nat) (resps : List DialogsResp)
    (l : List Dialog) (st' : DialogIterState) (resps' : List DialogsResp)
    (h : runIter n DialogIter.new resps = some (.ok (l, st', resps'))) :
    ∃ pre, resps = pre ++ resps' ∧ l = (pre.map decodeResp).flatten := by
  obtain ⟨pre, hpre, htr, hemp⟩ :=
    runIter_trace n DialogIter.new resps l st' resps' h
  have h2 : (pre.map decodeResp).flatten = l := by
    simpa [DialogIter.new, DialogIter.from_request, hemp] using htr
  exact ⟨pre, hpre, h2.symm⟩

/-- A second raw dialog over a channel, with an `Empty{id = 7}` last
message. -/
def exRawDialog2 : RawDialog := ⟨.channel 9 42, some (.empty 7)⟩

/-- A transport producing one two-item `Slice` chunk. -/
def exRunResps : List DialogsResp :=
  [.slice 10 [exRawDialog, exRawDialog2] [] [] []]

/-- Outcome of driving the fresh iterator to exhaustion over
`exRunResps`. -/
def exRun :
    Option (Except IterError
      (List Dialog × DialogIterState × List DialogsResp)) :=
  runIter 3 DialogIter.new exRunResps

/-- The items that drive yields. -/
def exRunItems : List Dialog :=
  match exRun with
  | some (.ok (l, _, _)) => l
  | _ => []

/-- The state that drive ends in. -/
def exRunState : DialogIterState :=
  match exRun with
  | some (.ok (_, st, _)) => st
  | _ => DialogIter.new

/-- The responses that drive leaves unconsumed. -/
def exRunRest : List DialogsResp :=
  match exRun with
  | some (.ok (_, _, r)) => r
  | _ => []

/-- C8 witness: the concrete two-item drive. -/
theorem order_preservation_witness :
    ∃ pre, exRunResps = pre ++ exRunRest ∧
      exRunItems = (pre.map decodeResp).flatten :=
  order_preservation 3 exRunResps exRunItems exRunState exRunRest (by rfl)

end Grammers
